import Mathlib

/-!
A shallow embedding of the task/execution core of a small RISC-V kernel
(`my_os`): the syscall dispatcher, the per-hart mount protocol, and the
task/thread-group model (`clone`, `execve`, `exit`), together with proofs
about them.

Conventions of the embedding:
* machine words are `Nat`; overflow never matters for the embedded code paths;
* `Arc`-shared cells (parent back-reference, children map, thread group,
  address space) are modelled by indirection: a task record stores an
  identity (a `Nat`) and the kernel state stores the cell contents keyed by
  that identity, so that `Arc` sharing and `Arc` pointer equality are
  captured faithfully;
* `Weak` references are tids; a weak upgrade succeeds iff the tid is still
  present in the live-task map;
* code that panics is modelled with `Option`/`Except`/an explicit outcome
  constructor: `none`/`error`/`panics` means the kernel panicked at that
  point;
* side effects whose ordering the specification constrains (marking threads
  zombie, switching and dropping page tables, TLB fences) are reified as an
  event trace returned next to the new state.

Crates of the repository that are not under `src/` (`config`, the tid
allocator, `TrapContext`, `EnvContext`, the `signal` crate, the
memory-space implementation and the `SyscallNo` enum) are modelled from the
spec; every such definition carries a doc comment saying so.
-/

/-! ## Syscall dispatcher (src/kernel/src/syscall/mod.rs) -/

/-- Modelled from the spec: the `SyscallNo` enum lives in
`src/kernel/src/syscall/consts.rs`, which is not under `src/`.  The spec
(section 6) names the recognized syscalls and says the ABI is Linux-like on
RISC-V, so the enum is modelled as the set of Linux riscv64 numbers of
exactly the syscalls the dispatcher's match arms name. -/
def syscallEnumNos : List Nat :=
  [93, 94, 221, 124, 220, 260, 178, 172, 173, 155, 96, 174, 175, 154,
   214, 222, 215,
   63, 64, 56, 57, 34, 17, 49, 23, 24, 80, 79, 61, 35, 40, 39, 59, 29,
   25, 66, 65, 73, 71,
   135, 134, 129, 130, 131, 139, 133,
   169, 153, 101, 113, 112, 114, 102, 103,
   98, 100, 99,
   119, 120, 121, 122, 123,
   160, 165, 116]

/-- `SyscallNo::from_repr`: `some` iff the number is a variant of the
`SyscallNo` enum. -/
def SyscallNo.from_repr (n : Nat) : Option Nat :=
  if n ∈ syscallEnumNos then some n else none

/-- Result of one run of the dispatcher, abstracting the handler bodies:
`panics` models `unimplemented!()`, `value v` a concrete return without
calling any handler, `dispatched no` the call into the matched handler
(whose body is outside the extracted core). -/
inductive SyscallOutcome
  | panics
  | value (v : Nat)
  | dispatched (no : Nat)
deriving DecidableEq

/-- The numbers that have an explicit dispatch arm in the `match` of
`syscall` (src/kernel/src/syscall/mod.rs, lines 75-179).  The arm list
coincides with the recognized set of spec section 6. -/
def dispatchArms : List Nat := syscallEnumNos

/-- The dispatcher `syscall` (src/kernel/src/syscall/mod.rs, lines 66-190):
`SyscallNo::from_repr` failing hits `log::error!` followed by
`unimplemented!()`, i.e. a panic; a number that is an enum variant is
dispatched by the match, whose catch-all arm logs and produces `Ok(0)`. -/
def syscall (syscall_no : Nat) (_args : Fin 6 → Nat) : SyscallOutcome :=
  match SyscallNo.from_repr syscall_no with
  | none => SyscallOutcome.panics
  | some no =>
      if no ∈ dispatchArms then SyscallOutcome.dispatched no
      else SyscallOutcome.value 0

/-! ## Env context and the hart mount protocol
(src/kernel/src/processor/hart.rs) -/

/-- Modelled from the spec: `EnvContext` (processor/ctx.rs is not under
`src/`).  Spec section 3: two fields, `sum_enabled` and
`interrupts_pending_enable`. -/
structure EnvContext where
  sum_enabled : Bool
  interrupts_pending_enable : Bool
deriving DecidableEq

/-- Modelled from the spec: a fresh `EnvContext` wants interrupts off and
no user-page access. -/
def EnvContext.new : EnvContext := ⟨false, false⟩

/-- Modelled from the spec: `EnvContext::env_change(new_env, old_env)`
returns whether the newly mounted env context wants interrupts on
(spec section 3: the swap returns whether the newly-mounted value wants
interrupts on). -/
def EnvContext.env_change (new_env _old_env : EnvContext) : Bool :=
  new_env.interrupts_pending_enable

/-- The address space installed on a hart: the kernel page table or a user
page table identified by its version token. -/
inductive InstalledSpace
  | kernelSpace
  | userSpace (version : Nat)
deriving DecidableEq

/-- Per-hart state: the `Hart` control block of hart.rs (`hart_id`, the
optional mounted task, the mounted env context) extended with the two
pieces of machine state the mount protocol manipulates: the
interrupt-enable flag `sie` (written by `disable_interrupt` /
`enable_interrupt`) and the installed address space (written by
`mm::activate_kernel_space`). -/
structure HartState where
  hart_id : Nat
  task : Option Nat
  env : EnvContext
  sie : Bool
  installed : InstalledSpace
deriving DecidableEq

/-- `Hart::enter_user_task_switch` (hart.rs, lines 57-67): disable
interrupts; `env_change(env, old_env)`; mount the task; swap the env
context into the hart; re-enable interrupts iff the new env wants them.
Returns the new hart state and the env context handed back to the caller
(the old hart env, by `core::mem::swap`). -/
def HartState.enter_user_task_switch (h : HartState) (task : Nat)
    (env : EnvContext) : HartState × EnvContext :=
  let h1 : HartState := { h with sie := false }
  let sie := EnvContext.env_change env h1.env
  let h2 : HartState := { h1 with task := some task }
  let h3 : HartState := { h2 with env := env }
  let envOut := h1.env
  (if sie then { h3 with sie := true } else h3, envOut)

/-- `Hart::leave_user_task_switch` (hart.rs, lines 68-78): disable
interrupts; `env_change(env, old_env)`; install the kernel address space;
clear the mounted task; swap the env context back; re-enable interrupts iff
the env being mounted wants them.  The `task` parameter of the source is
unused by the body (the call site in schedule.rs does not even pass it). -/
def HartState.leave_user_task_switch (h : HartState) (_task : Nat)
    (env : EnvContext) : HartState × EnvContext :=
  let h1 : HartState := { h with sie := false }
  let sie := EnvContext.env_change env h1.env
  let h2 : HartState := { h1 with installed := InstalledSpace.kernelSpace }
  let h3 : HartState := { h2 with task := none }
  let h4 : HartState := { h3 with env := env }
  let envOut := h1.env
  (if sie then { h4 with sie := true } else h4, envOut)

/-! ## The task model (src/kernel/src/task/task.rs) -/

/-- `TaskState` (task.rs, lines 96-100). -/
inductive TaskState
  | Running
  | Zombie
deriving DecidableEq

/-- The order `Running < Zombie` in which a task's state may only move
forward: `stateLe a b` holds iff a task observed in state `a` may later be
observed in state `b`. -/
def stateLe : TaskState → TaskState → Bool
  | TaskState.Running, _ => true
  | TaskState.Zombie, TaskState.Zombie => true
  | TaskState.Zombie, TaskState.Running => false

/-- Modelled from the spec: `TrapContext` (kernel/src/trap is not under
`src/`).  Spec section 3: the saved user register file (of which the
argument registers and the stack pointer are the ones the core writes),
the user program counter `sepc`, and a supervisor-status snapshot. -/
structure TrapContext where
  sepc : Nat
  sp : Nat
  a0 : Nat
  a1 : Nat
  a2 : Nat
  sstatus : Nat
deriving DecidableEq

/-- Modelled from the spec: `TrapContext::new(entry, user_sp)` for a fresh
thread. -/
def TrapContext.new (entry user_sp : Nat) : TrapContext :=
  { sepc := entry, sp := user_sp, a0 := 0, a1 := 0, a2 := 0, sstatus := 0 }

/-- Modelled from the spec: `TrapContext::init_user(sp, entry, a0, a1, a2)`
for post-exec reinitialization. -/
def TrapContext.init_user (sp entry a0 a1 a2 : Nat) : TrapContext :=
  { sepc := entry, sp := sp, a0 := a0, a1 := a1, a2 := a2, sstatus := 0 }

/-- Modelled from the spec: `SigPending` (the `signal` crate is not under
`src/`); the queue of received, not yet delivered signals. -/
structure SigPending where
  queue : List Nat
deriving DecidableEq

/-- Modelled from the spec: `SigPending::new()` is empty. -/
def SigPending.new : SigPending := ⟨[]⟩

/-- Modelled from the spec: a signal set is a bitset over signal numbers. -/
abbrev SigSet := Nat

/-- Modelled from the spec: `SigSet::empty()`. -/
def SigSet.empty : SigSet := 0

/-- Modelled from the spec: `SigHandlers` maps signal numbers to the
user-installed handlers; a fresh table has no customized entries. -/
structure SigHandlers where
  customized : List (Nat × Nat)
deriving DecidableEq

/-- Modelled from the spec: `SigHandlers::new()`. -/
def SigHandlers.new : SigHandlers := ⟨[]⟩

/-- Modelled from the spec: `SignalStack` as set by `sys_signalstack`. -/
structure SignalStack where
  base : Nat
  size : Nat
deriving DecidableEq

/-- Modelled from the spec: `INIT_PROC_PID` lives in the `config` crate,
which is not under `src/`; the init process is spawned first and owns the
well-known reserved PID 1 (spec section 8, scenario 1). -/
def INIT_PROC_PID : Nat := 1

/-- The `Task` control block (task.rs, lines 42-82).  `Arc`-shared cells
are stored as identities resolved through the kernel state: `memory_space`
is the identity of the shared address-space handle, `parent` the identity
of the shared parent cell, `children` the identity of the shared children
map, `thread_group` the identity of the shared thread group.  The `waker`
and `time_stat` fields, which no embedded operation reads, are omitted. -/
structure TaskRec where
  tid : Nat
  is_leader : Bool
  state : TaskState
  memory_space : Nat
  parent : Nat
  children : Nat
  thread_group : Nat
  exit_code : Int
  trap_context : TrapContext
  sig_pending : SigPending
  sig_mask : SigSet
  sig_handlers : SigHandlers
  sig_stack : Option SignalStack
  sig_ucontext_ptr : Nat
deriving DecidableEq

/-- `ThreadGroup` (task.rs, lines 420-457): the key set of the member map
(tid to weak task reference) and the weak leader reference, both as tids. -/
structure ThreadGroup where
  members : List Nat
  leader : Option Nat
deriving DecidableEq

/-- `ThreadGroup::new` (task.rs, lines 426-431). -/
def ThreadGroup.new : ThreadGroup := ⟨[], none⟩

/-- `ThreadGroup::push_leader` (task.rs, lines 433-438). -/
def ThreadGroup.push_leader (g : ThreadGroup) (t : Nat) : ThreadGroup :=
  { leader := some t, members := g.members ++ [t] }

/-- `ThreadGroup::push` (task.rs, lines 440-443). -/
def ThreadGroup.push (g : ThreadGroup) (t : Nat) : ThreadGroup :=
  { g with members := g.members ++ [t] }

/-- `ThreadGroup::remove` (task.rs, lines 445-448). -/
def ThreadGroup.removeMember (g : ThreadGroup) (t : Nat) : ThreadGroup :=
  { g with members := g.members.erase t }

/-- Modelled from the spec: the tid allocator (task/tid.rs is not under
`src/`).  Spec section 4.1: `alloc` returns the smallest previously freed
tid, or the next never-used integer when the free list is empty. -/
structure TidAllocator where
  next_fresh : Nat
  free : List Nat
deriving DecidableEq

/-- Modelled from the spec: `alloc_tid` (spec section 4.1). -/
def TidAllocator.alloc : TidAllocator → Nat × TidAllocator
  | ⟨n, []⟩ => (n, ⟨n + 1, []⟩)
  | ⟨n, f :: fs⟩ => (f, ⟨n, fs⟩)

/-- The whole kernel-shared state the task operations touch.

`tasks` maps a tid to the live task owning it (`none` once every strong
`Arc` is dropped); `parentCells`, `childrenMaps`, `groups` and
`spaceContents` resolve the shared-cell identities stored in task records
(`spaceContents` maps an address-space handle to the version token of the
page table it currently holds); `manager` is the key set of the
`TASK_MANAGER` registry (manager.rs), whose weak values upgrade through
`tasks`; `next_arc` supplies fresh cell identities and version tokens. -/
structure Kernel where
  tasks : Nat → Option TaskRec
  parentCells : Nat → Option Nat
  childrenMaps : Nat → List Nat
  groups : Nat → ThreadGroup
  spaceContents : Nat → Nat
  manager : List Nat
  tid_alloc : TidAllocator
  next_arc : Nat

/-- Point update of the live-task map at one tid. -/
def Kernel.updateTask (k : Kernel) (t : Nat) (f : TaskRec → TaskRec) : Kernel :=
  { k with tasks := fun x => if x = t then (k.tasks x).map f else k.tasks x }

/-- `Task::set_zombie` (task.rs, lines 212-214). -/
def Kernel.set_zombie (k : Kernel) (t : Nat) : Kernel :=
  k.updateTask t (fun r => { r with state := TaskState.Zombie })

/-- `TaskManager::find_task_by_pid` (manager.rs, lines 36-42): a hit in the
registry whose weak entry still upgrades. -/
def Kernel.find_task_by_pid (k : Kernel) (pid : Nat) : Option TaskRec :=
  if pid ∈ k.manager then k.tasks pid else none

/-- `Task::pid` through `ThreadGroup::tgid` (task.rs, lines 176-178 and
450-452): the tid of the upgraded leader; `none` models the `unwrap`
panics on a groupless or dead leader. -/
def Kernel.tgid (k : Kernel) (g : ThreadGroup) : Option Nat := do
  let l ← g.leader
  let lt ← k.tasks l
  pure lt.tid

/-- `Task::pid` (task.rs, lines 176-178). -/
def Kernel.pid (k : Kernel) (t : TaskRec) : Option Nat :=
  k.tgid (k.groups t.thread_group)

/-- `Task::ppid` (task.rs, lines 184-190):
`self.parent().expect(..).upgrade().unwrap().pid()`.  `none` models the
panic of the `expect` (no parent) or of the `unwrap` (parent dropped). -/
def Kernel.ppid (k : Kernel) (t : TaskRec) : Option Nat := do
  let p ← k.parentCells t.parent
  let pt ← k.tasks p
  k.pid pt

/-! ## Events

Side effects whose ordering the spec constrains, reified in program
order. -/

/-- One externally visible side effect of a task operation. -/
inductive Event
  | setZombie (tid : Nat)
  | switchPageTable (version : Nat)
  | dropSpace (version : Nat)
  | tlbFenceAll
deriving DecidableEq

/-- Whether an event is the marking of a task as zombie. -/
def Event.isSetZombieEv : Event → Bool
  | Event.setZombie _ => true
  | _ => false

/-- Whether an event installs the new page table or drops the old address
space. -/
def Event.isSpaceChangeEv : Event → Bool
  | Event.switchPageTable _ => true
  | Event.dropSpace _ => true
  | _ => false

/-- Whether an event installs the new page table. -/
def Event.isSwitchEv : Event → Bool
  | Event.switchPageTable _ => true
  | _ => false

/-- Holds iff no zombie marking occurs at or after the first page-table
switch or address-space drop of the trace, i.e. every marking is strictly
before every switch and every drop. -/
def zombiesPrecedeSpaceChanges (tr : List Event) : Bool :=
  (tr.dropWhile (fun e => !e.isSpaceChangeEv)).all (fun e => !e.isSetZombieEv)

/-! ## CloneFlags and Task::do_clone -/

/-- `CloneFlags` (syscall/process.rs, re-exported through task.rs): the
bits `do_clone` inspects plus the placeholders the spec names. -/
structure CloneFlags where
  thread : Bool
  vm : Bool
  files : Bool
  sighand : Bool
  parent_bit : Bool
  settls : Bool
deriving DecidableEq

/-- Result of `Task::do_clone`: the new kernel state, the tid of the new
task, and the trace of side effects. -/
structure CloneResult where
  kernel : Kernel
  child : Nat
  events : List Event

/-- `Task::do_clone` (task.rs, lines 263-332).  `ct` is the record of the
calling task (`self`, live by construction).  In source order: allocate a
tid; copy the caller's trap context and state (the copied exit code is
computed and then discarded by the source, which stores a fresh `0`);
`THREAD` decides whether parent cell, children map and thread group are
shared `Arc`s of the caller's or freshly created; `VM` decides whether the
address-space handle is shared or duplicated lazily with a TLB-wide fence
(`sfence_vma_all`); assemble the new task; push it into the thread group
(as leader and child of the caller when not `THREAD`); register it in the
task manager. -/
def Kernel.do_clone (k0 : Kernel) (ct : TaskRec) (flags : CloneFlags)
    (_user_stack_begin : Option Nat) : CloneResult :=
  let tid := k0.tid_alloc.alloc.1
  let k1 : Kernel := { k0 with tid_alloc := k0.tid_alloc.alloc.2 }
  let is_leader := !flags.thread
  let pc := if flags.thread then ct.parent else k1.next_arc
  let ch := if flags.thread then ct.children else k1.next_arc + 1
  let tg := if flags.thread then ct.thread_group else k1.next_arc + 2
  let k2 : Kernel :=
    if flags.thread then k1
    else
      { k1 with
        next_arc := k1.next_arc + 3
        parentCells := fun x => if x = pc then some ct.tid else k1.parentCells x
        childrenMaps := fun x => if x = ch then [] else k1.childrenMaps x
        groups := fun x => if x = tg then ThreadGroup.new else k1.groups x }
  let ms := if flags.vm then ct.memory_space else k2.next_arc
  let k3 : Kernel :=
    if flags.vm then k2
    else
      { k2 with
        next_arc := k2.next_arc + 1
        spaceContents := fun x =>
          if x = ms then k2.spaceContents ct.memory_space
          else k2.spaceContents x }
  let events : List Event := if flags.vm then [] else [Event.tlbFenceAll]
  let newTask : TaskRec :=
    { tid := tid
      is_leader := is_leader
      state := ct.state
      memory_space := ms
      parent := pc
      children := ch
      thread_group := tg
      exit_code := 0
      trap_context := ct.trap_context
      sig_pending := SigPending.new
      sig_mask := SigSet.empty
      sig_handlers := SigHandlers.new
      sig_stack := none
      sig_ucontext_ptr := 0 }
  let k4 : Kernel :=
    { k3 with tasks := fun x => if x = tid then some newTask else k3.tasks x }
  let k5 : Kernel :=
    if flags.thread then
      { k4 with groups := fun x =>
          if x = tg then (k4.groups x).push tid else k4.groups x }
    else
      let k4a : Kernel :=
        { k4 with groups := fun x =>
            if x = tg then (k4.groups x).push_leader tid else k4.groups x }
      { k4a with childrenMaps := fun x =>
          if x = ct.children then k4a.childrenMaps x ++ [tid]
          else k4a.childrenMaps x }
  let k6 : Kernel := { k5 with manager := tid :: k5.manager }
  { kernel := k6, child := tid, events := events }

/-! ## Task::do_execve -/

/-- Modelled from the spec: the entry point `parse_and_map_elf` extracts
from the ELF image (the memory-space implementation is not under `src/`);
the exact value is outside the core, so it is modelled as a function of
the bytes. -/
def elfEntry (elf : List Nat) : Nat := elf.headD 0

/-- Modelled from the spec: the fixed user stack size `USER_STACK_SIZE` of
the `config` crate (not under `src/`); the numeric value is outside the
core contract. -/
def USER_STACK_SIZE : Nat := 8 * 1024 * 1024

/-- Modelled from the spec: the top of the user stack returned by
`alloc_stack(USER_STACK_SIZE)`; the concrete address is outside the core
contract. -/
def userStackTop : Nat := USER_STACK_SIZE

/-- The termination loop of `do_execve` (task.rs, lines 343-349): visit the
thread-group members in map order and `set_zombie` every one that is not a
leader, recording one event per marking.  A member whose weak reference no
longer upgrades is skipped here; `do_execve` itself refuses (models a
panic) when any member is dead, since the source's `tg.iter()` unwraps
every upgrade. -/
def Kernel.killNonLeaders : Kernel → List Nat → Kernel × List Event
  | k, [] => (k, [])
  | k, t :: ts =>
    match k.tasks t with
    | none => k.killNonLeaders ts
    | some r =>
      if r.is_leader then k.killNonLeaders ts
      else
        let k1 := k.set_zombie t
        let res := k1.killNonLeaders ts
        (res.1, Event.setZombie t :: res.2)

/-- `Task::do_execve` (task.rs, lines 335-368), in source order: build a
new memory space from the ELF (a fresh version token); mark every
non-leader member of the caller's thread group zombie; switch to the new
page table; overwrite the caller's address-space handle contents with the
new space, dropping the old one; allocate a fresh user stack and a lazy
heap; reinitialize the trap context with
`(stack_top, entry, 0, 0, 0)`.  `none` models the panic of
`tg.iter()`'s `upgrade().unwrap()` when a member is dead (and the
impossible case of a dead caller). -/
def Kernel.do_execve (k0 : Kernel) (caller : Nat) (elf : List Nat)
    (_argv _envp : List String) : Option (Kernel × List Event) :=
  match k0.tasks caller with
  | none => none
  | some ct =>
    let newVersion := k0.next_arc
    let entry := elfEntry elf
    let k1 : Kernel := { k0 with next_arc := k0.next_arc + 1 }
    let members := (k1.groups ct.thread_group).members
    if members.all (fun t => (k1.tasks t).isSome) then
      let killed := k1.killNonLeaders members
      let k2 := killed.1
      let oldVersion := k2.spaceContents ct.memory_space
      let k3 : Kernel :=
        { k2 with spaceContents := fun x =>
            if x = ct.memory_space then newVersion else k2.spaceContents x }
      let k4 := k3.updateTask caller (fun r =>
        { r with trap_context :=
            TrapContext.init_user userStackTop entry 0 0 0 })
      some (k4, killed.2 ++ [Event.switchPageTable newVersion,
                            Event.dropSpace oldVersion])
    else none

/-! ## Task::do_exit -/

/-- The panics reachable from `do_exit`: the `assert_ne!` guarding against
init dying (task.rs, lines 375-380), the `unwrap` of a leader's dead
parent (line 385), and the `unwrap` inside `TASK_MANAGER.init_proc()`
(manager.rs, line 33). -/
inductive ExitPanic
  | initDeath
  | deadParent
  | noInitProc
deriving DecidableEq

/-- Point update of one parent cell. -/
def Kernel.setParentCell (k : Kernel) (x : Nat) (v : Option Nat) : Kernel :=
  { k with parentCells := fun y => if y = x then v else k.parentCells y }

/-- The reparenting loop of `do_exit` (task.rs, lines 396-399): each child
is marked zombie and its parent cell overwritten with a weak reference to
init.  Children are held by strong references, so the lookup of a child
cannot fail; the `none` branch is dead. -/
def reparentChildren (initTid : Nat) : Kernel → List Nat → Kernel
  | k, [] => k
  | k, c :: cs =>
    let k1 := k.set_zombie c
    let k2 :=
      match k1.tasks c with
      | some cr => k1.setParentCell cr.parent (some initTid)
      | none => k1
    reparentChildren initTid k2 cs

/-- The tail of `do_exit` (task.rs, lines 405-409): a non-leader removes
itself from the thread group and from the task manager; a leader is left
for the parent's `wait4`. -/
def Kernel.exitTail (k : Kernel) (ct : TaskRec) : Kernel :=
  if ct.is_leader then k
  else
    let k1 : Kernel :=
      { k with groups := fun x =>
          if x = ct.thread_group then (k.groups x).removeMember ct.tid
          else k.groups x }
    { k1 with manager := k1.manager.erase ct.tid }

/-- `Task::do_exit` (task.rs, lines 373-410), in source order: assert the
caller is not init; a leader touches its upgraded parent (where a `SIGCHLD`
would be sent); each child is marked zombie and reparented to init and the
children are copied into init's children map; finally a non-leader removes
itself from the thread group and the manager. -/
def Kernel.do_exit (k : Kernel) (ct : TaskRec) : Except ExitPanic Kernel :=
  if ct.tid = INIT_PROC_PID then Except.error ExitPanic.initDeath
  else
    let parentDead : Bool :=
      ct.is_leader &&
        (match k.parentCells ct.parent with
         | some p => (k.tasks p).isNone
         | none => false)
    if parentDead then Except.error ExitPanic.deadParent
    else
      let cs := k.childrenMaps ct.children
      if cs.isEmpty then Except.ok (k.exitTail ct)
      else
        match k.find_task_by_pid INIT_PROC_PID with
        | none => Except.error ExitPanic.noInitProc
        | some initRec =>
          let k1 := reparentChildren initRec.tid k cs
          let k2 : Kernel :=
            { k1 with childrenMaps := fun x =>
                if x = initRec.children then
                  k1.childrenMaps initRec.children ++ cs
                else k1.childrenMaps x }
          Except.ok (k2.exitTail ct)

/-! ## task_loop and handle_exit (src/kernel/src/task/schedule.rs) -/

/-- What one check at the bottom of the `task_loop` body does. -/
inductive LoopOutcome
  | continues
  | panicked
deriving DecidableEq

/-- `handle_exit` (schedule.rs, lines 115-117): the body is exactly
`panic!()`; no state is read or written. -/
def handle_exit (k : Kernel) (_task : Nat) : Kernel × LoopOutcome :=
  (k, LoopOutcome.panicked)

/-- The zombie check at the bottom of one `task_loop` iteration
(schedule.rs, lines 106-112): when `task.is_zombie()` the loop breaks and
calls `handle_exit`; otherwise the loop continues with the next
trap-return. -/
def taskLoopCheck (k : Kernel) (task : Nat) : Kernel × LoopOutcome :=
  match k.tasks task with
  | some r =>
    if r.state = TaskState.Zombie then handle_exit k task
    else (k, LoopOutcome.continues)
  | none => (k, LoopOutcome.continues)

/-! ## The operations that write existing task state, as one step
relation -/

/-- The kernel operations claim C7 ranges over: every code path of the
embedded core that writes the `state` field of an already existing task,
plus `do_clone` (which only creates a new task). -/
inductive KernelOp
  | opSetZombie (tid : Nat)
  | opExecve (caller : Nat) (elf : List Nat) (argv envp : List String)
  | opExit (caller : Nat)
  | opClone (caller : Nat) (flags : CloneFlags) (stack : Option Nat)

/-- Apply one operation; a path that panics (models `unimplemented!`,
`assert_ne!` or a failed `unwrap`) halts the kernel, so the state reached
by later observers is the pre-state. -/
def Kernel.step (k : Kernel) : KernelOp → Kernel
  | KernelOp.opSetZombie t => k.set_zombie t
  | KernelOp.opExecve c elf argv envp =>
    match k.do_execve c elf argv envp with
    | some res => res.1
    | none => k
  | KernelOp.opExit c =>
    match k.tasks c with
    | some ct =>
      match k.do_exit ct with
      | Except.ok k1 => k1
      | Except.error _ => k
    | none => k
  | KernelOp.opClone c flags stack =>
    match k.tasks c with
    | some ct => (k.do_clone ct flags stack).kernel
    | none => k

/-! ## Small facts about the state order -/

theorem stateLe_refl (s : TaskState) : stateLe s s = true := by
  cases s <;> rfl

theorem stateLe_zombie (s : TaskState) : stateLe s TaskState.Zombie = true := by
  cases s <;> rfl

/-! ## Claim C1 -/

/-- C1, counterexample: syscall number `0xDEAD` (= 57005) is not in the
dispatch table (it is not a `SyscallNo` variant), yet the dispatcher does
not return 0 for it: it panics through `unimplemented!()`.  This refutes
the claim that every unknown syscall number returns 0 and never panics. -/
theorem syscall_unknown_cex :
    SyscallNo.from_repr 57005 = none ∧
      syscall 57005 (fun _ => 0) = SyscallOutcome.panics := by
  exact ⟨by decide, by decide⟩

/-- C1, amended: for every syscall number that is not a variant of the
`SyscallNo` enum and any six machine-word arguments, the dispatcher logs
the unknown number and then panics via `unimplemented!()`; it does not
return to the caller.  (A number that is an enum variant but lacks an
explicit dispatch arm is the case that logs and returns 0.) -/
theorem syscall_unknown_panics (n : Nat) (args : Fin 6 → Nat)
    (h : SyscallNo.from_repr n = none) :
    syscall n args = SyscallOutcome.panics := by
  simp [syscall, h]

theorem syscall_unknown_panics_witness :
    syscall 57005 (fun _ => 0) = SyscallOutcome.panics :=
  syscall_unknown_panics 57005 (fun _ => 0) (by decide)

/-! ## Claim C3 -/

/-- A hart whose machine interrupt-enable flag disagrees with its mounted
env context's intent: interrupts are on although the mounted env asked for
them off. -/
def hartCex : HartState :=
  { hart_id := 0
    task := none
    env := { sum_enabled := false, interrupts_pending_enable := false }
    sie := true
    installed := InstalledSpace.kernelSpace }

/-- C3, counterexample: on the hart `hartCex` (interrupts enabled, mounted
env wanting them off), `enter_user_task_switch` for task 1 with a fresh env
followed by `leave_user_task_switch` leaves interrupts disabled, not in the
state the hart had before the pair.  The pair always ends with the
interrupt-enable flag dictated by the previously mounted env context, so
the claim fails on every hart state whose flag disagrees with that
intent. -/
theorem enter_leave_sie_cex :
    ((((hartCex.enter_user_task_switch 1 EnvContext.new).1).leave_user_task_switch
        1 (hartCex.enter_user_task_switch 1 EnvContext.new).2).1).sie ≠
      hartCex.sie := by
  decide

/-- C3, amended: for every hart state whose interrupt-enable flag agrees
with its mounted env context's `interrupts_pending_enable` (the invariant
the env-swap discipline maintains, since env swap is the only mechanism
that flips interrupt enable), every task and every env context,
`enter_user_task_switch` immediately followed by `leave_user_task_switch`
leaves the hart with no current task, with the kernel address space
installed, with the interrupt-enable state the hart had before the pair,
and with its original env context remounted. -/
theorem enter_leave_restores (h : HartState) (t : Nat) (e : EnvContext)
    (hc : h.sie = h.env.interrupts_pending_enable) :
    (((h.enter_user_task_switch t e).1).leave_user_task_switch t
        (h.enter_user_task_switch t e).2).1.task = none ∧
    (((h.enter_user_task_switch t e).1).leave_user_task_switch t
        (h.enter_user_task_switch t e).2).1.installed =
      InstalledSpace.kernelSpace ∧
    (((h.enter_user_task_switch t e).1).leave_user_task_switch t
        (h.enter_user_task_switch t e).2).1.sie = h.sie ∧
    (((h.enter_user_task_switch t e).1).leave_user_task_switch t
        (h.enter_user_task_switch t e).2).1.env = h.env := by
  by_cases he : e.interrupts_pending_enable <;>
    by_cases hh : h.env.interrupts_pending_enable <;>
      simp [HartState.enter_user_task_switch, HartState.leave_user_task_switch,
        EnvContext.env_change, he, hh, hc]

/-- A hart whose interrupt-enable flag agrees with its mounted env
context's intent (both on). -/
def hartOk : HartState :=
  { hart_id := 0
    task := none
    env := { sum_enabled := false, interrupts_pending_enable := true }
    sie := true
    installed := InstalledSpace.kernelSpace }

theorem enter_leave_restores_witness :
    (((hartOk.enter_user_task_switch 1 EnvContext.new).1).leave_user_task_switch 1
        (hartOk.enter_user_task_switch 1 EnvContext.new).2).1.task = none ∧
    (((hartOk.enter_user_task_switch 1 EnvContext.new).1).leave_user_task_switch 1
        (hartOk.enter_user_task_switch 1 EnvContext.new).2).1.installed =
      InstalledSpace.kernelSpace ∧
    (((hartOk.enter_user_task_switch 1 EnvContext.new).1).leave_user_task_switch 1
        (hartOk.enter_user_task_switch 1 EnvContext.new).2).1.sie = hartOk.sie ∧
    (((hartOk.enter_user_task_switch 1 EnvContext.new).1).leave_user_task_switch 1
        (hartOk.enter_user_task_switch 1 EnvContext.new).2).1.env = hartOk.env :=
  enter_leave_restores hartOk 1 EnvContext.new (by decide)

/-! ## Claim C8 -/

/-- C8: `do_exit` called by the init process (the task whose tid is
`INIT_PROC_PID`) is fatal: the `assert_ne!` halts the kernel with the
initproc-died message; and `do_exit` called by any task whose tid is not
`INIT_PROC_PID` never reaches that fatal path, whatever else it does. -/
theorem do_exit_init_fatal (k : Kernel) (ct1 ct2 : TaskRec)
    (h1 : ct1.tid = INIT_PROC_PID) (h2 : ct2.tid ≠ INIT_PROC_PID) :
    k.do_exit ct1 = Except.error ExitPanic.initDeath ∧
      k.do_exit ct2 ≠ Except.error ExitPanic.initDeath := by
  constructor
  · simp [Kernel.do_exit, h1]
  · simp only [Kernel.do_exit, h2, if_false]
    split
    · simp
    · split
      · simp
      · split
        · simp
        · simp

/-- A task record with a given tid and otherwise default fields, used to
instantiate theorems at concrete inputs. -/
def plainTask (tid : Nat) (leader : Bool) (st : TaskState) : TaskRec :=
  { tid := tid
    is_leader := leader
    state := st
    memory_space := 100 + tid
    parent := 200 + tid
    children := 300 + tid
    thread_group := 400 + tid
    exit_code := 0
    trap_context := TrapContext.new 0 0
    sig_pending := SigPending.new
    sig_mask := SigSet.empty
    sig_handlers := SigHandlers.new
    sig_stack := none
    sig_ucontext_ptr := 0 }

/-- An empty kernel state: no live tasks, empty cells, nothing
registered. -/
def emptyKernel : Kernel :=
  { tasks := fun _ => none
    parentCells := fun _ => none
    childrenMaps := fun _ => []
    groups := fun _ => ThreadGroup.new
    spaceContents := fun _ => 0
    manager := []
    tid_alloc := ⟨2, []⟩
    next_arc := 1000 }

theorem do_exit_init_fatal_witness :
    emptyKernel.do_exit (plainTask 1 true TaskState.Running) =
        Except.error ExitPanic.initDeath ∧
      emptyKernel.do_exit (plainTask 5 true TaskState.Running) ≠
        Except.error ExitPanic.initDeath :=
  do_exit_init_fatal emptyKernel (plainTask 1 true TaskState.Running)
    (plainTask 5 true TaskState.Running) (by decide) (by decide)

/-! ## Claim C9 -/

/-- C9: when the `task_loop` zombie check after a trap-handler return
observes `is_zombie()` true, the loop breaks into `handle_exit`, and
`handle_exit` unconditionally panics the kernel while performing no state
change at all: the kernel state it hands back is exactly the one it was
given, so no zombie-marking and no parent notification happens there. -/
theorem task_loop_zombie_panics (k : Kernel) (t : Nat) (r : TaskRec)
    (hr : k.tasks t = some r) (hz : r.state = TaskState.Zombie) :
    taskLoopCheck k t = (k, LoopOutcome.panicked) ∧
      handle_exit k t = (k, LoopOutcome.panicked) := by
  constructor
  · simp [taskLoopCheck, hr, hz, handle_exit]
  · rfl

/-- A kernel with a single zombie task 3, for instantiating theorems. -/
def zombieKernel : Kernel :=
  { emptyKernel with
    tasks := fun x =>
      if x = 3 then some (plainTask 3 true TaskState.Zombie) else none
    manager := [3] }

theorem task_loop_zombie_panics_witness :
    taskLoopCheck zombieKernel 3 = (zombieKernel, LoopOutcome.panicked) ∧
      handle_exit zombieKernel 3 = (zombieKernel, LoopOutcome.panicked) :=
  task_loop_zombie_panics zombieKernel 3 (plainTask 3 true TaskState.Zombie)
    rfl rfl

/-! ## Claim C10 -/

/-- C10: `Task::ppid` panics whenever the task's parent cell holds no
parent (as for the init process) or the parent task has already been
dropped (its weak reference no longer upgrades); `none` in the embedding
is exactly that panic, and the source offers no `Option` or errno-carrying
return for these cases — its return type is a bare `Pid`. -/
theorem ppid_panics (k : Kernel) (t1 t2 : TaskRec) (p : Nat)
    (h1 : k.parentCells t1.parent = none)
    (h2 : k.parentCells t2.parent = some p)
    (h2b : k.tasks p = none) :
    k.ppid t1 = none ∧ k.ppid t2 = none := by
  constructor
  · simp [Kernel.ppid, h1]
  · simp [Kernel.ppid, h2, h2b]

/-- A kernel for the `ppid` witness: task 4's parent cell (cell 204) holds
no parent, task 6's parent cell (cell 206) holds tid 9, and no task 9 is
alive. -/
def ppidKernel : Kernel :=
  { emptyKernel with
    tasks := fun x =>
      if x = 4 then some (plainTask 4 true TaskState.Running)
      else if x = 6 then some (plainTask 6 true TaskState.Running)
      else none
    parentCells := fun x => if x = 206 then some 9 else none
    manager := [4, 6] }

theorem ppid_panics_witness :
    ppidKernel.ppid (plainTask 4 true TaskState.Running) = none ∧
      ppidKernel.ppid (plainTask 6 true TaskState.Running) = none :=
  ppid_panics ppidKernel (plainTask 4 true TaskState.Running)
    (plainTask 6 true TaskState.Running) 9 (by decide) (by decide) (by decide)

/-! ## The fields of the task created by do_clone -/

/-- The record `do_clone` builds for the new task, looked up at the new
tid: its state is a copy of the caller's, its exit code a fresh 0, its
signal state fresh, its trap context a copy of the caller's, its leader
flag the negation of `THREAD`, its address space the caller's handle under
`VM` and a fresh handle otherwise (with a TLB-wide fence recorded). -/
theorem do_clone_child_fields (k : Kernel) (ct : TaskRec) (flags : CloneFlags)
    (stack : Option Nat) :
    ∃ nr,
      ((k.do_clone ct flags stack).kernel).tasks
          ((k.do_clone ct flags stack).child) = some nr ∧
      nr.is_leader = !flags.thread ∧
      nr.state = ct.state ∧
      nr.exit_code = 0 ∧
      nr.trap_context = ct.trap_context ∧
      nr.sig_pending = SigPending.new ∧
      nr.sig_mask = SigSet.empty ∧
      nr.sig_handlers = SigHandlers.new ∧
      nr.sig_stack = none ∧
      nr.sig_ucontext_ptr = 0 ∧
      nr.memory_space =
        (if flags.vm then ct.memory_space
         else if flags.thread then k.next_arc else k.next_arc + 3) ∧
      (k.do_clone ct flags stack).events =
        (if flags.vm then [] else [Event.tlbFenceAll]) := by
  by_cases ht : flags.thread <;> by_cases hv : flags.vm <;>
    simp [Kernel.do_clone, ht, hv]

/-! ## Claim C4 -/

/-- A caller that is already a zombie when it clones (reachable: a sibling
thread's `execve` marks it zombie while it sits inside `sys_clone`). -/
def zombieCaller : TaskRec := plainTask 5 true TaskState.Zombie

/-- The kernel in which `zombieCaller` is the only live task. -/
def cloneCexKernel : Kernel :=
  { emptyKernel with
    tasks := fun x => if x = 5 then some zombieCaller else none
    tid_alloc := ⟨6, []⟩
    manager := [5] }

/-- C4, counterexample: `do_clone` does not make the new task `Running` —
it copies the caller's state (`SpinNoIrqLock::new(self.state())`,
task.rs line 272).  Cloning from the zombie caller yields a task whose
state is `Zombie`, not `Running`, refuting the claim for this caller and
flag combination. -/
theorem do_clone_running_cex :
    (((cloneCexKernel.do_clone zombieCaller
          ⟨false, false, false, false, false, false⟩ none).kernel).tasks
        ((cloneCexKernel.do_clone zombieCaller
          ⟨false, false, false, false, false, false⟩ none).child)).map
        TaskRec.state = some TaskState.Zombie ∧
      TaskState.Zombie ≠ TaskState.Running := by
  exact ⟨rfl, by decide⟩

/-- C4, amended: for every caller task and every combination of clone
flags, the task returned by `do_clone` starts in a copy of the caller's
state at the time of the call (hence `Running` exactly when the caller is
still `Running`), has `exit_code` 0, has fresh (empty) signal state
(empty pending queue, empty mask, default handlers, no alternate stack, a
zero ucontext pointer), and has a trap context equal to a copy of the
caller's trap context at the time of the call. -/
theorem do_clone_initial_fields (k : Kernel) (ct : TaskRec)
    (flags : CloneFlags) (stack : Option Nat) :
    ∃ nr,
      ((k.do_clone ct flags stack).kernel).tasks
          ((k.do_clone ct flags stack).child) = some nr ∧
      nr.state = ct.state ∧
      nr.exit_code = 0 ∧
      nr.sig_pending = SigPending.new ∧
      nr.sig_mask = SigSet.empty ∧
      nr.sig_handlers = SigHandlers.new ∧
      nr.sig_stack = none ∧
      nr.sig_ucontext_ptr = 0 ∧
      nr.trap_context = ct.trap_context := by
  obtain ⟨nr, hlook, _, hst, hec, htc, hsp, hsm, hsh, hss, hsu, _, _⟩ :=
    do_clone_child_fields k ct flags stack
  exact ⟨nr, hlook, hst, hec, hsp, hsm, hsh, hss, hsu, htc⟩

/-! ## Claim C5 -/

/-- C5: `do_clone` with `THREAD|VM` yields a task with `is_leader = false`
sharing the identical address-space handle as the caller (the same `Arc`
identity); `do_clone` with flags not containing `VM` yields a task whose
address-space handle is a fresh copy-on-write duplicate — a handle
identity distinct from the caller's — and records a TLB-wide fence
(`sfence_vma_all`) during the clone.  The hypothesis `hms` says the
caller's handle identity was allocated earlier than the kernel's next
fresh identity, which every allocation discipline maintains. -/
theorem do_clone_vm_sharing (k : Kernel) (ct : TaskRec)
    (stack1 stack2 : Option Nat) (fA fB : CloneFlags)
    (hA1 : fA.thread = true) (hA2 : fA.vm = true) (hB : fB.vm = false)
    (hms : ct.memory_space < k.next_arc) :
    (∃ nr,
      ((k.do_clone ct fA stack1).kernel).tasks
          ((k.do_clone ct fA stack1).child) = some nr ∧
      nr.is_leader = false ∧ nr.memory_space = ct.memory_space) ∧
    (∃ nr,
      ((k.do_clone ct fB stack2).kernel).tasks
          ((k.do_clone ct fB stack2).child) = some nr ∧
      nr.memory_space ≠ ct.memory_space ∧
      Event.tlbFenceAll ∈ (k.do_clone ct fB stack2).events) := by
  constructor
  · obtain ⟨nr, hlook, hld, _, _, _, _, _, _, _, _, hmsp, _⟩ :=
      do_clone_child_fields k ct fA stack1
    refine ⟨nr, hlook, ?_, ?_⟩
    · rw [hld, hA1]; rfl
    · rw [hmsp, if_pos hA2]
  · obtain ⟨nr, hlook, _, _, _, _, _, _, _, _, _, hmsp, hev⟩ :=
      do_clone_child_fields k ct fB stack2
    refine ⟨nr, hlook, ?_, ?_⟩
    · rw [hmsp, if_neg (by simp [hB])]
      by_cases hbt : fB.thread <;> simp [hbt] <;> omega
    · rw [hev, if_neg (by simp [hB])]
      simp

/-- The kernel for the C5 witness: one live running caller, tid 5. -/
def cloneWitKernel : Kernel :=
  { emptyKernel with
    tasks := fun x =>
      if x = 5 then some (plainTask 5 true TaskState.Running) else none
    tid_alloc := ⟨6, []⟩
    manager := [5] }

theorem do_clone_vm_sharing_witness :
    (∃ nr,
      ((cloneWitKernel.do_clone (plainTask 5 true TaskState.Running)
          ⟨true, true, false, false, false, false⟩ none).kernel).tasks
          ((cloneWitKernel.do_clone (plainTask 5 true TaskState.Running)
          ⟨true, true, false, false, false, false⟩ none).child) = some nr ∧
      nr.is_leader = false ∧
      nr.memory_space = (plainTask 5 true TaskState.Running).memory_space) ∧
    (∃ nr,
      ((cloneWitKernel.do_clone (plainTask 5 true TaskState.Running)
          ⟨false, false, false, false, false, false⟩ none).kernel).tasks
          ((cloneWitKernel.do_clone (plainTask 5 true TaskState.Running)
          ⟨false, false, false, false, false, false⟩ none).child) = some nr ∧
      nr.memory_space ≠ (plainTask 5 true TaskState.Running).memory_space ∧
      Event.tlbFenceAll ∈
        (cloneWitKernel.do_clone (plainTask 5 true TaskState.Running)
          ⟨false, false, false, false, false, false⟩ none).events) :=
  do_clone_vm_sharing cloneWitKernel (plainTask 5 true TaskState.Running)
    none none ⟨true, true, false, false, false, false⟩
    ⟨false, false, false, false, false, false⟩ rfl rfl rfl (by decide)

/-! ## Characterization of the execve termination loop -/

theorem updateTask_tasks (k : Kernel) (t : Nat) (f : TaskRec → TaskRec)
    (x : Nat) :
    (k.updateTask t f).tasks x =
      if x = t then (k.tasks x).map f else k.tasks x := rfl

/-- What `killNonLeaders` does to the live-task map: every visited tid
whose task is a non-leader has its state forced to `Zombie`; nothing else
changes.  Leader flags and liveness are untouched, so the condition can be
read off the pre-state. -/
theorem killNonLeaders_tasks (ts : List Nat) : ∀ (k : Kernel) (t : Nat),
    ((Kernel.killNonLeaders k ts).1).tasks t
      = (k.tasks t).map (fun r =>
          if t ∈ ts ∧ r.is_leader = false
          then { r with state := TaskState.Zombie } else r) := by
  induction ts with
  | nil =>
    intro k t
    simp [Kernel.killNonLeaders]
  | cons a ts ih =>
    intro k t
    simp only [Kernel.killNonLeaders]
    cases hka : k.tasks a with
    | none =>
      rw [ih]
      by_cases hta : t = a
      · subst hta; rw [hka]; rfl
      · simp [List.mem_cons, hta]
    | some r =>
      by_cases hrl : r.is_leader = true
      · simp only [hrl, if_true]
        rw [ih]
        by_cases hta : t = a
        · subst hta; rw [hka]; simp [hrl]
        · simp [List.mem_cons, hta]
      · have hb : r.is_leader = false := by
          cases h : r.is_leader
          · rfl
          · exact absurd h hrl
        simp only [hb, Bool.false_eq_true, if_false]
        rw [ih]
        by_cases hta : t = a
        · subst hta
          simp only [Kernel.set_zombie, updateTask_tasks, if_pos rfl, hka]
          simp [hb]
        · simp only [Kernel.set_zombie, updateTask_tasks, if_neg hta]
          simp [List.mem_cons, hta]

/-- The predicate over the pre-state that picks out the members
`killNonLeaders` marks: live and not a leader. -/
def liveNonLeader (k : Kernel) (t : Nat) : Bool :=
  match k.tasks t with
  | some r => !r.is_leader
  | none => false

theorem liveNonLeader_set_zombie (k : Kernel) (a t : Nat) :
    liveNonLeader (k.set_zombie a) t = liveNonLeader k t := by
  simp only [liveNonLeader, Kernel.set_zombie, updateTask_tasks]
  by_cases hta : t = a
  · subst hta
    simp only [if_pos rfl]
    cases k.tasks t <;> rfl
  · simp [hta]

/-- The event trace of `killNonLeaders`: one `setZombie` per visited live
non-leader, in visiting order. -/
theorem killNonLeaders_events (ts : List Nat) : ∀ (k : Kernel),
    (Kernel.killNonLeaders k ts).2
      = (ts.filter (liveNonLeader k)).map Event.setZombie := by
  induction ts with
  | nil =>
    intro k
    simp [Kernel.killNonLeaders]
  | cons a ts ih =>
    intro k
    simp only [Kernel.killNonLeaders]
    cases hka : k.tasks a with
    | none =>
      rw [ih]
      have hpa : liveNonLeader k a = false := by
        simp [liveNonLeader, hka]
      simp [List.filter_cons, hpa]
    | some r =>
      by_cases hrl : r.is_leader = true
      · simp only [hrl, if_true]
        rw [ih]
        have hpa : liveNonLeader k a = false := by
          simp [liveNonLeader, hka, hrl]
        simp [List.filter_cons, hpa]
      · have hb : r.is_leader = false := by
          cases h : r.is_leader
          · rfl
          · exact absurd h hrl
        simp only [hb, Bool.false_eq_true, if_false]
        rw [ih]
        have hpa : liveNonLeader k a = true := by
          simp [liveNonLeader, hka, hb]
        have hcongr :
            ts.filter (liveNonLeader (k.set_zombie a)) =
              ts.filter (liveNonLeader k) := by
          apply List.filter_congr
          intro x _
          exact liveNonLeader_set_zombie k a x
        rw [hcongr]
        simp [List.filter_cons, hpa]

/-- Unfolding of a successful `do_execve`: the post-state live-task map
(every non-leader member of the caller's group zombified, the caller's
trap context reinitialized, everything else untouched) and the shape of
the event trace (all the `setZombie` markings, then the page-table switch,
then the drop of the old address space). -/
theorem do_execve_parts (k : Kernel) (caller : Nat) (elf : List Nat)
    (argv envp : List String) (k' : Kernel) (tr : List Event) (ct : TaskRec)
    (hct : k.tasks caller = some ct)
    (hex : k.do_execve caller elf argv envp = some (k', tr)) :
    (∀ t, k'.tasks t =
      (k.tasks t).map (fun r =>
        if t = caller then
          { (if t ∈ (k.groups ct.thread_group).members ∧ r.is_leader = false
             then { r with state := TaskState.Zombie } else r) with
            trap_context :=
              TrapContext.init_user userStackTop (elfEntry elf) 0 0 0 }
        else
          (if t ∈ (k.groups ct.thread_group).members ∧ r.is_leader = false
           then { r with state := TaskState.Zombie } else r))) ∧
    (∃ w, tr =
      (((k.groups ct.thread_group).members.filter (liveNonLeader k)).map
        Event.setZombie)
        ++ [Event.switchPageTable k.next_arc, Event.dropSpace w]) := by
  simp only [Kernel.do_execve, hct] at hex
  split at hex
  · simp only [Option.some.injEq, Prod.mk.injEq] at hex
    obtain ⟨hk', htr⟩ := hex
    constructor
    · intro t
      rw [← hk']
      rw [updateTask_tasks]
      rw [killNonLeaders_tasks]
      by_cases htc : t = caller
      · subst htc
        simp only [if_pos rfl]
        cases k.tasks t <;> simp
      · simp [htc]
    · refine ⟨(Kernel.killNonLeaders { k with next_arc := k.next_arc + 1 }
          (k.groups ct.thread_group).members).1.spaceContents ct.memory_space, ?_⟩
      rw [← htr, killNonLeaders_events]
      rfl
  · exact Option.noConfusion hex

theorem setZombie_not_spaceChange (e : Event) (h : e.isSetZombieEv = true) :
    e.isSpaceChangeEv = false := by
  cases e <;> simp_all [Event.isSetZombieEv, Event.isSpaceChangeEv]

/-- A trace of zombie markings followed by the page-table switch and the
address-space drop satisfies the ordering predicate. -/
theorem zombiesPrecede_shape (xs : List Event) (v w : Nat)
    (h : ∀ e ∈ xs, e.isSetZombieEv = true) :
    zombiesPrecedeSpaceChanges
      (xs ++ [Event.switchPageTable v, Event.dropSpace w]) = true := by
  induction xs with
  | nil => rfl
  | cons e xs ih =>
    have he := h e (List.mem_cons_self e xs)
    have hsp : e.isSpaceChangeEv = false := setZombie_not_spaceChange e he
    simp only [List.cons_append, zombiesPrecedeSpaceChanges,
      List.dropWhile_cons, hsp, Bool.not_false, if_true]
    exact ih (fun x hx => h x (List.mem_cons_of_mem e hx))

/-! ## Claim C2 -/

/-- C2: for every task calling `do_execve` (with an ELF the parse of which
succeeds, i.e. `do_execve` returns), every non-leader member of the
caller's thread group is marked `Zombie` — the post-state records it as
`Zombie` and the trace contains its `setZombie` marking — and every
marking in the trace is strictly before the switch to the new page table
and before the drop of the old address space (no marking occurs at or
after the first space change), while the page-table switch does occur in
the trace. -/
theorem do_execve_kills_nonleaders (k : Kernel) (caller : Nat)
    (elf : List Nat) (argv envp : List String) (ct : TaskRec) (k' : Kernel)
    (tr : List Event)
    (hct : k.tasks caller = some ct)
    (hex : k.do_execve caller elf argv envp = some (k', tr))
    (t : Nat) (r r' : TaskRec)
    (hmem : t ∈ (k.groups ct.thread_group).members)
    (hr : k.tasks t = some r)
    (hlead : r.is_leader = false)
    (hr' : k'.tasks t = some r') :
    r'.state = TaskState.Zombie ∧
    Event.setZombie t ∈ tr ∧
    zombiesPrecedeSpaceChanges tr = true ∧
    tr.any Event.isSwitchEv = true := by
  obtain ⟨htasks, w, htr⟩ := do_execve_parts k caller elf argv envp k' tr ct
    hct hex
  refine ⟨?_, ?_, ?_, ?_⟩
  · have h1 := htasks t
    rw [hr', hr] at h1
    simp only [Option.map_some', Option.some.injEq] at h1
    by_cases htc : t = caller
    · subst htc
      rw [h1]
      simp [hmem, hlead]
    · rw [h1]
      simp [htc, hmem, hlead]
  · rw [htr]
    apply List.mem_append_left
    exact List.mem_map_of_mem Event.setZombie
      (List.mem_filter.mpr ⟨hmem, by simp [liveNonLeader, hr, hlead]⟩)
  · rw [htr]
    apply zombiesPrecede_shape
    intro e he
    obtain ⟨x, _, hx⟩ := List.mem_map.mp he
    rw [← hx]
    rfl
  · rw [htr]
    simp [Event.isSwitchEv]

/-- The leader (tid 2) of the witness thread group, in group 50. -/
def execCt : TaskRec := { plainTask 2 true TaskState.Running with thread_group := 50 }

/-- The non-leader sibling (tid 3) of the witness thread group. -/
def execSibling : TaskRec :=
  { plainTask 3 false TaskState.Running with thread_group := 50 }

/-- The kernel for the C2 witness: leader 2 and non-leader 3 in thread
group 50, both live. -/
def execWitKernel : Kernel :=
  { emptyKernel with
    tasks := fun x =>
      if x = 2 then some execCt
      else if x = 3 then some execSibling
      else none
    groups := fun x => if x = 50 then ⟨[2, 3], some 2⟩ else ThreadGroup.new
    manager := [2, 3] }

/-- The state and trace produced by the witness `do_execve`. -/
def execWitPost : Kernel × List Event :=
  match execWitKernel.do_execve 2 [7] [] [] with
  | some p => p
  | none => (execWitKernel, [])

theorem do_execve_kills_nonleaders_witness :
    ({ execSibling with state := TaskState.Zombie }).state = TaskState.Zombie ∧
    Event.setZombie 3 ∈ execWitPost.2 ∧
    zombiesPrecedeSpaceChanges execWitPost.2 = true ∧
    execWitPost.2.any Event.isSwitchEv = true :=
  do_execve_kills_nonleaders execWitKernel 2 [7] [] [] execCt
    execWitPost.1 execWitPost.2 rfl rfl 3 execSibling
    { execSibling with state := TaskState.Zombie } (by decide) rfl rfl rfl

/-! ## Characterization of the exit reparenting loop -/

theorem setParentCell_tasks (k : Kernel) (x : Nat) (v : Option Nat)
    (t : Nat) : (k.setParentCell x v).tasks t = k.tasks t := rfl

theorem set_zombie_tasks (k : Kernel) (c t : Nat) :
    (k.set_zombie c).tasks t =
      if t = c
      then (k.tasks t).map (fun r => { r with state := TaskState.Zombie })
      else k.tasks t := rfl

/-- What `reparentChildren` does to the live-task map: every visited child
has its state forced to `Zombie`; nothing else changes. -/
theorem reparent_tasks (cs : List Nat) : ∀ (k : Kernel) (i t : Nat),
    (reparentChildren i k cs).tasks t
      = (k.tasks t).map (fun r =>
          if t ∈ cs then { r with state := TaskState.Zombie } else r) := by
  induction cs with
  | nil =>
    intro k i t
    simp [reparentChildren]
  | cons c cs ih =>
    intro k i t
    simp only [reparentChildren]
    cases hscr : (k.set_zombie c).tasks c with
    | none =>
      rw [ih]
      rw [set_zombie_tasks, if_pos rfl] at hscr
      have hk0 : k.tasks c = none := by
        cases hx : k.tasks c
        · rfl
        · rw [hx] at hscr; exact Option.noConfusion hscr
      by_cases htc : t = c
      · subst htc
        rw [set_zombie_tasks, if_pos rfl, hk0]
        rfl
      · rw [set_zombie_tasks, if_neg htc]
        simp [List.mem_cons, htc]
    | some cr =>
      rw [ih, setParentCell_tasks]
      by_cases htc : t = c
      · subst htc
        rw [set_zombie_tasks, if_pos rfl]
        cases hx : k.tasks t with
        | none => rfl
        | some r0 =>
          by_cases hmemcs : t ∈ cs <;> simp [hmemcs]
      · rw [set_zombie_tasks, if_neg htc]
        simp [List.mem_cons, htc]

theorem set_zombie_parentCells (k : Kernel) (c x : Nat) :
    (k.set_zombie c).parentCells x = k.parentCells x := rfl

/-- The reparenting loop only ever writes `some initTid` into parent
cells, so a cell already holding it keeps holding it. -/
theorem reparent_cells_of_some (cs : List Nat) : ∀ (k : Kernel) (i x : Nat),
    k.parentCells x = some i →
    (reparentChildren i k cs).parentCells x = some i := by
  induction cs with
  | nil =>
    intro k i x h
    simpa [reparentChildren] using h
  | cons c cs ih =>
    intro k i x h
    simp only [reparentChildren]
    cases hscr : (k.set_zombie c).tasks c with
    | none => exact ih _ _ _ h
    | some cr =>
      apply ih
      simp only [Kernel.setParentCell]
      by_cases hx : x = cr.parent
      · simp [hx]
      · simpa [hx, set_zombie_parentCells] using h

/-- After the reparenting loop, the parent cell of every visited live
child holds a weak reference to init. -/
theorem reparent_cells_member (cs : List Nat) : ∀ (k : Kernel) (i c : Nat)
    (cr : TaskRec), c ∈ cs → k.tasks c = some cr →
    (reparentChildren i k cs).parentCells cr.parent = some i := by
  induction cs with
  | nil =>
    intro k i c cr hc _
    exact absurd hc (List.not_mem_nil c)
  | cons a cs ih =>
    intro k i c cr hc hcr
    simp only [reparentChildren]
    by_cases hca : c = a
    · subst hca
      have hscr : (k.set_zombie c).tasks c =
          some { cr with state := TaskState.Zombie } := by
        rw [set_zombie_tasks, if_pos rfl, hcr]
        rfl
      rw [hscr]
      apply reparent_cells_of_some
      simp [Kernel.setParentCell]
    · have hcs : c ∈ cs := by
        rcases List.mem_cons.mp hc with h | h
        · exact absurd h hca
        · exact h
      cases hscr : (k.set_zombie a).tasks a with
      | none =>
        apply ih _ _ _ _ hcs
        rw [set_zombie_tasks, if_neg hca]
        exact hcr
      | some ar =>
        apply ih _ _ _ _ hcs
        rw [setParentCell_tasks, set_zombie_tasks, if_neg hca]
        exact hcr

theorem exitTail_tasks (k : Kernel) (ct : TaskRec) (t : Nat) :
    (k.exitTail ct).tasks t = k.tasks t := by
  simp only [Kernel.exitTail]
  split <;> rfl

theorem exitTail_parentCells (k : Kernel) (ct : TaskRec) (x : Nat) :
    (k.exitTail ct).parentCells x = k.parentCells x := by
  simp only [Kernel.exitTail]
  split <;> rfl

theorem exitTail_childrenMaps (k : Kernel) (ct : TaskRec) (x : Nat) :
    (k.exitTail ct).childrenMaps x = k.childrenMaps x := by
  simp only [Kernel.exitTail]
  split <;> rfl

theorem reparent_childrenMaps (cs : List Nat) : ∀ (k : Kernel) (i x : Nat),
    (reparentChildren i k cs).childrenMaps x = k.childrenMaps x := by
  induction cs with
  | nil =>
    intro k i x
    rfl
  | cons c cs ih =>
    intro k i x
    simp only [reparentChildren]
    cases hscr : (k.set_zombie c).tasks c with
    | none => exact ih _ _ _
    | some cr => exact ih _ _ _

/-! ## Claim C6 -/

/-- C6: for every non-init task that exits with children (so that
`do_exit` runs to completion), every child recorded in its children map is
marked `Zombie`, gets its parent cell overwritten with a weak reference to
the init process, and becomes a member of init's children map. -/
theorem do_exit_reparents (k : Kernel) (ct : TaskRec) (k' : Kernel)
    (initRec : TaskRec) (c : Nat) (cr : TaskRec)
    (hok : k.do_exit ct = Except.ok k')
    (hinit : k.find_task_by_pid INIT_PROC_PID = some initRec)
    (hc : c ∈ k.childrenMaps ct.children)
    (hcr : k.tasks c = some cr) :
    k'.tasks c = some { cr with state := TaskState.Zombie } ∧
    k'.parentCells cr.parent = some initRec.tid ∧
    c ∈ k'.childrenMaps initRec.children := by
  simp only [Kernel.do_exit] at hok
  split at hok
  · exact Except.noConfusion hok
  · split at hok
    · exact Except.noConfusion hok
    · split at hok
      · rename_i hempty
        rw [List.isEmpty_iff.mp hempty] at hc
        exact absurd hc (List.not_mem_nil c)
      · split at hok
        · exact Except.noConfusion hok
        · rename_i ir heq
          rw [hinit] at heq
          injection heq with heq
          subst heq
          simp only [Except.ok.injEq] at hok
          refine ⟨?_, ?_, ?_⟩
          · rw [← hok, exitTail_tasks]
            show (reparentChildren initRec.tid k
                (k.childrenMaps ct.children)).tasks c = _
            rw [reparent_tasks, hcr]
            simp [hc]
          · rw [← hok, exitTail_parentCells]
            show (reparentChildren initRec.tid k
                (k.childrenMaps ct.children)).parentCells cr.parent = _
            exact reparent_cells_member _ _ _ _ _ hc hcr
          · rw [← hok, exitTail_childrenMaps]
            show c ∈ (if initRec.children = initRec.children then
                (reparentChildren initRec.tid k
                  (k.childrenMaps ct.children)).childrenMaps initRec.children ++
                  k.childrenMaps ct.children
              else (reparentChildren initRec.tid k
                  (k.childrenMaps ct.children)).childrenMaps initRec.children)
            rw [if_pos rfl]
            exact List.mem_append_right _ hc

/-- The init process of the C6 witness (tid 1, children cell 30). -/
def exitInitRec : TaskRec := { plainTask 1 true TaskState.Running with children := 30 }

/-- The exiting task of the C6 witness (tid 5, parent cell 40, children
cell 31). -/
def exitCt : TaskRec :=
  { plainTask 5 true TaskState.Running with parent := 40, children := 31 }

/-- The child of the exiting task (tid 7, parent cell 42). -/
def exitChildRec : TaskRec := { plainTask 7 true TaskState.Running with parent := 42 }

/-- The kernel for the C6 witness: init 1 with children map [5], exiting
task 5 with children map [7], child 7 pointing back at 5. -/
def exitWitKernel : Kernel :=
  { emptyKernel with
    tasks := fun x =>
      if x = 1 then some exitInitRec
      else if x = 5 then some exitCt
      else if x = 7 then some exitChildRec
      else none
    parentCells := fun x =>
      if x = 40 then some 1 else if x = 42 then some 5 else none
    childrenMaps := fun x =>
      if x = 30 then [5] else if x = 31 then [7] else []
    manager := [1, 5, 7] }

/-- The kernel state after the witness `do_exit`. -/
def exitWitPost : Kernel :=
  match exitWitKernel.do_exit exitCt with
  | Except.ok kk => kk
  | Except.error _ => exitWitKernel

theorem do_exit_reparents_witness :
    exitWitPost.tasks 7 = some { exitChildRec with state := TaskState.Zombie } ∧
    exitWitPost.parentCells exitChildRec.parent = some exitInitRec.tid ∧
    7 ∈ exitWitPost.childrenMaps exitInitRec.children :=
  do_exit_reparents exitWitKernel exitCt exitWitPost exitInitRec 7
    exitChildRec rfl rfl (by decide) rfl

/-- A successful `do_exit` either leaves a task's state alone or moves it
to `Zombie`. -/
theorem do_exit_state_le (k : Kernel) (ct : TaskRec) (k' : Kernel)
    (hok : k.do_exit ct = Except.ok k') (t : Nat) (r r' : TaskRec)
    (hr : k.tasks t = some r) (hr' : k'.tasks t = some r') :
    r'.state = r.state ∨ r'.state = TaskState.Zombie := by
  simp only [Kernel.do_exit] at hok
  split at hok
  · exact Except.noConfusion hok
  · split at hok
    · exact Except.noConfusion hok
    · split at hok
      · simp only [Except.ok.injEq] at hok
        rw [← hok, exitTail_tasks, hr] at hr'
        injection hr' with h
        rw [← h]
        exact Or.inl rfl
      · split at hok
        · exact Except.noConfusion hok
        · rename_i ir heq
          simp only [Except.ok.injEq] at hok
          rw [← hok, exitTail_tasks] at hr'
          have hr2 : (reparentChildren ir.tid k
              (k.childrenMaps ct.children)).tasks t = some r' := hr'
          rw [reparent_tasks, hr] at hr2
          simp only [Option.map_some', Option.some.injEq] at hr2
          subst hr2
          by_cases hm : t ∈ k.childrenMaps ct.children
          · simp [hm]
          · simp [hm]

/-- `do_clone` does not touch any live task other than the freshly
allocated tid. -/
theorem do_clone_tasks_other (k : Kernel) (ct : TaskRec) (flags : CloneFlags)
    (stack : Option Nat) (t : Nat) (ht : t ≠ k.tid_alloc.alloc.1) :
    ((k.do_clone ct flags stack).kernel).tasks t = k.tasks t := by
  by_cases hth : flags.thread <;> by_cases hv : flags.vm <;>
    simp [Kernel.do_clone, hth, hv, ht]

/-! ## Claim C7 -/

/-- C7: across every operation of the embedded core that can write an
existing task's state (`set_zombie`, `do_execve` killing the caller's
siblings, `do_exit` reparenting children) and across `do_clone` (which
only creates a fresh task, under the allocator guarantee `hfresh` that
the allocated tid is not currently live), the state of every already
existing task is non-decreasing in the order `Running < Zombie`: it is
either unchanged or moved from `Running` to `Zombie`, never from `Zombie`
back to `Running`. -/
theorem task_state_monotone (k : Kernel) (op : KernelOp)
    (hfresh : k.tasks k.tid_alloc.alloc.1 = none)
    (t : Nat) (r r' : TaskRec)
    (hr : k.tasks t = some r)
    (hr' : (k.step op).tasks t = some r') :
    stateLe r.state r'.state = true := by
  cases op with
  | opSetZombie tid =>
    simp only [Kernel.step] at hr'
    rw [set_zombie_tasks] at hr'
    by_cases htt : t = tid
    · rw [if_pos htt, hr] at hr'
      simp only [Option.map_some', Option.some.injEq] at hr'
      rw [← hr']
      exact stateLe_zombie r.state
    · rw [if_neg htt, hr] at hr'
      injection hr' with h
      rw [← h]
      exact stateLe_refl r.state
  | opExecve c elf argv envp =>
    cases hex : k.do_execve c elf argv envp with
    | none =>
      have hstep : k.step (KernelOp.opExecve c elf argv envp) = k := by
        simp [Kernel.step, hex]
      rw [hstep, hr] at hr'
      injection hr' with h
      rw [← h]
      exact stateLe_refl r.state
    | some res =>
      have hstep : k.step (KernelOp.opExecve c elf argv envp) = res.1 := by
        simp [Kernel.step, hex]
      rw [hstep] at hr'
      cases hcc : k.tasks c with
      | none => simp [Kernel.do_execve, hcc] at hex
      | some ct =>
        obtain ⟨htasks, _, _⟩ := do_execve_parts k c elf argv envp res.1
          res.2 ct hcc (by rw [hex])
        have h1 := htasks t
        rw [hr', hr] at h1
        simp only [Option.map_some', Option.some.injEq] at h1
        have h2 := congrArg TaskRec.state h1
        by_cases htc : t = c
        · subst htc
          by_cases hm : t ∈ (k.groups ct.thread_group).members ∧
              r.is_leader = false
          · simp [hm] at h2
            rw [h2]
            exact stateLe_zombie r.state
          · simp [hm] at h2
            rw [h2]
            exact stateLe_refl r.state
        · by_cases hm : t ∈ (k.groups ct.thread_group).members ∧
              r.is_leader = false
          · simp [htc, hm] at h2
            rw [h2]
            exact stateLe_zombie r.state
          · simp [htc, hm] at h2
            rw [h2]
            exact stateLe_refl r.state
  | opExit c =>
    cases hcc : k.tasks c with
    | none =>
      have hstep : k.step (KernelOp.opExit c) = k := by
        simp [Kernel.step, hcc]
      rw [hstep, hr] at hr'
      injection hr' with h
      rw [← h]
      exact stateLe_refl r.state
    | some ct =>
      cases hde : k.do_exit ct with
      | error e =>
        have hstep : k.step (KernelOp.opExit c) = k := by
          simp [Kernel.step, hcc, hde]
        rw [hstep, hr] at hr'
        injection hr' with h
        rw [← h]
        exact stateLe_refl r.state
      | ok k1 =>
        have hstep : k.step (KernelOp.opExit c) = k1 := by
          simp [Kernel.step, hcc, hde]
        rw [hstep] at hr'
        rcases do_exit_state_le k ct k1 hde t r r' hr hr' with h | h
        · rw [h]
          exact stateLe_refl r.state
        · rw [h]
          exact stateLe_zombie r.state
  | opClone c flags stack =>
    cases hcc : k.tasks c with
    | none =>
      have hstep : k.step (KernelOp.opClone c flags stack) = k := by
        simp [Kernel.step, hcc]
      rw [hstep, hr] at hr'
      injection hr' with h
      rw [← h]
      exact stateLe_refl r.state
    | some ct =>
      have hstep : k.step (KernelOp.opClone c flags stack) =
          (k.do_clone ct flags stack).kernel := by
        simp [Kernel.step, hcc]
      rw [hstep] at hr'
      have htne : t ≠ k.tid_alloc.alloc.1 := by
        intro h
        rw [h, hfresh] at hr
        exact Option.noConfusion hr
      rw [do_clone_tasks_other k ct flags stack t htne, hr] at hr'
      injection hr' with h
      rw [← h]
      exact stateLe_refl r.state

theorem task_state_monotone_witness :
    stateLe (plainTask 5 true TaskState.Running).state
      ({ plainTask 5 true TaskState.Running with
          state := TaskState.Zombie }).state = true :=
  task_state_monotone cloneWitKernel (KernelOp.opSetZombie 5) rfl 5
    (plainTask 5 true TaskState.Running)
    { plainTask 5 true TaskState.Running with state := TaskState.Zombie }
    rfl rfl
